import Mathlib

/-!
Verification of the elevation-layer compositing engine of the rocky
repository (src/rocky/ElevationLayer.cpp), as a shallow embedding.

Heights are modelled as exact rationals.  The pipeline section additionally
models IEEE NaN through the two-constructor type `FVal`, because the no-data
normalization pass (ElevationLayer::normalizeNoDataValues) branches on
`std::isnan`.  Machine floats never overflow in the modelled code paths, so
exact rational arithmetic is a faithful abstraction of the control flow the
claims are about.

Code whose source is not part of the repository snapshot (TileKey, Profile,
GeoHeightfield sampling, the `equiv` float comparison from Math.h) is
modelled from the spec; each such definition carries a doc comment starting
with `Modelled from the spec:`.
-/

/-- The canonical no-data sentinel `NO_DATA_VALUE = -FLT_MAX`.
`FLT_MAX` is exactly `2^128 - 2^104 = 340282346638528859811704183484516925440`. -/
def NO_DATA_VALUE : ℚ := -340282346638528859811704183484516925440

/-- Modelled from the spec: a TileKey is `(level, tileX, tileY, Profile)`
identifying a quadtree cell; valid keys have level/x/y within range, and
`makeParent` strictly decreases the level (TileKey sources are not in the
repository snapshot). The `valid` flag models `TileKey::valid()`. -/
structure TileKey where
  level : ℕ
  tileX : ℕ
  tileY : ℕ
  profile : ℕ
  valid : Bool
deriving DecidableEq

/-- Modelled from the spec: `makeParent()` strictly decreases the level;
walking past level 0 yields an invalid key. -/
def TileKey.makeParent (k : TileKey) : TileKey :=
  if k.level = 0 then { k with valid := false }
  else { k with level := k.level - 1, tileX := k.tileX / 2, tileY := k.tileY / 2 }

/-- Fuel-indexed version of the parent-walk fallback loop of
`ElevationLayer::assembleHeightfield` (ElevationLayer.cpp:275-283):
`while (subKey.valid() && !subTile.status.ok()) { fetch; on failure makeParent }`.
`fetch` abstracts `createHeightfieldImplementation_internal`; `none` is a
failed result.  Returns the final key together with the fetched tile. -/
def walkFetchAux {α : Type} (fetch : TileKey → Option α) : ℕ → TileKey → Option (TileKey × α)
  | 0, _ => none
  | fuel + 1, k =>
    if k.valid then
      match fetch k with
      | some v => some (k, v)
      | none => walkFetchAux fetch fuel k.makeParent
    else none

/-- The parent-walk loop of the assembler, run with enough fuel to reach level 0. -/
def walkFetch {α : Type} (fetch : TileKey → Option α) (k : TileKey) : Option (TileKey × α) :=
  walkFetchAux fetch (k.level + 1) k

/-- Fuel-indexed version of the per-contender parent-walk of
`ElevationLayerVector::populateHeightfield` (ElevationLayer.cpp:819-826):
`while (!layerHF.valid() && actualKey.valid() && layer->isKeyInLegalRange(actualKey))
 { layerHF = layer->createHeightfield(actualKey, io).value; on failure makeParent }`. -/
def walkLegalAux {α : Type} (legal : TileKey → Bool) (fetch : TileKey → Option α) :
    ℕ → TileKey → Option (TileKey × α)
  | 0, _ => none
  | fuel + 1, k =>
    if k.valid && legal k then
      match fetch k with
      | some v => some (k, v)
      | none => walkLegalAux legal fetch fuel k.makeParent
    else none

/-- The per-contender parent-walk of the compositor, with enough fuel to reach level 0. -/
def walkLegal {α : Type} (legal : TileKey → Bool) (fetch : TileKey → Option α)
    (k : TileKey) : Option (TileKey × α) :=
  walkLegalAux legal fetch (k.level + 1) k

/-! ## Single-layer resolution pipeline (ElevationLayer.cpp:428-492)

Heightfield samples in this section are `FVal`: an exact rational or NaN,
because `normalizeNoDataValues` branches on `std::isnan`. -/

/-- A float sample: NaN, or an exact finite value. -/
inductive FVal where
  | nan : FVal
  | fin (q : ℚ) : FVal
deriving DecidableEq

/-- `std::isnan`. -/
def FVal.isnan : FVal → Bool
  | .nan => true
  | .fin _ => false

/-- `<` on floats: any comparison with NaN is false. -/
def FVal.ltF : FVal → FVal → Bool
  | .fin p, .fin q => decide (p < q)
  | _, _ => false

/-- `>` on floats: any comparison with NaN is false. -/
def FVal.gtF : FVal → FVal → Bool
  | .fin p, .fin q => decide (q < p)
  | _, _ => false

/-- Modelled from the spec: `equiv` (from Math.h, not in the repository
snapshot) tests whether a sample "equals the configured no-data value";
comparisons with NaN are false. -/
def FVal.equivF : FVal → FVal → Bool
  | .fin p, .fin q => decide (p = q)
  | _, _ => false

/-- The canonical no-data sentinel as a float sample. -/
def NO_DATA_F : FVal := .fin NO_DATA_VALUE

/-- A heightfield as held by the pipeline: dimensions plus the R32_SFLOAT
pixel buffer (`float* pixel = hf->data<float>()`, width*height entries). -/
structure HFp where
  width : ℕ
  height : ℕ
  data : List FVal
deriving DecidableEq

/-- `validateHeightfield` (ElevationLayer.cpp:22-42): both axes in [1,1024].
The null check is modelled by the `Option` wrapping at the call site. -/
def validateHeightfield (hf : HFp) : Bool :=
  (1 ≤ hf.height && hf.height ≤ 1024) && (1 ≤ hf.width && hf.width ≤ 1024)

/-- One pixel of `ElevationLayer::normalizeNoDataValues`
(ElevationLayer.cpp:195-214): a sample that is NaN, equals the configured
no-data value, or lies outside [minValidValue, maxValidValue] is overwritten
with `NO_DATA_VALUE`. -/
def normalizePixel (noData minValid maxValid : ℚ) (h : FVal) : FVal :=
  if h.isnan || h.equivF (.fin noData) || h.ltF (.fin minValid) || h.gtF (.fin maxValid)
  then NO_DATA_F else h

/-- `ElevationLayer::normalizeNoDataValues` (ElevationLayer.cpp:195-214):
the pass over every pixel of the heightfield. -/
def normalizeNoDataValues (noData minValid maxValid : ℚ) (hf : HFp) : HFp :=
  { hf with data := hf.data.map (normalizePixel noData minValid maxValid) }

/-- Error statuses of the rocky `Status` taxonomy used by this pipeline. -/
inductive Status where
  | ResourceUnavailable : Status
  | GeneralError : Status
  | ConfigurationError : Status
  | ServiceUnavailable : Status
deriving DecidableEq

/-- `Result<GeoHeightfield>`: either a failed status, or an ok result whose
value may be the non-error INVALID (modelled as `val none`). -/
inductive ResultG where
  | err (s : Status) : ResultG
  | val (g : Option HFp) : ResultG
deriving DecidableEq

/-- The raster acquired before validation: the driver result in the
same-profile branch (ElevationLayer.cpp:448-456), the output of the assembler in
the cross-profile branch (ElevationLayer.cpp:457-462). -/
def acquiredResult (sameProfile : Bool) (driver : ResultG) (assembleRes : Option HFp) : ResultG :=
  if sameProfile then driver else .val assembleRes

/-- `ElevationLayer::createHeightfieldInKeyProfile` (ElevationLayer.cpp:428-492).
Layer state enters as booleans: `profileValid` = `profile().valid()`,
`open_` = `isOpen()`, `legal` = `isKeyInLegalRange(key)`, `sameProfile` =
`key.profile() == profile()`; `driver` is the (deterministic) result of
`createHeightfieldImplementation_internal`, `assembleRes` the result of
`assembleHeightfield`, `cancel` the cancellation token.  A failed driver
status is returned verbatim (line 452-453); after acquisition the code checks
cancellation, validates dimensions, normalizes no-data values in place, and
maps a missing heightfield to the non-error INVALID result. -/
def createHeightfieldInKeyProfile (profileValid open_ legal sameProfile cancel : Bool)
    (driver : ResultG) (assembleRes : Option HFp) (noData minValid maxValid : ℚ) : ResultG :=
  if !profileValid || !open_ then .err .ResourceUnavailable
  else if !legal then .val none
  else
    match acquiredResult sameProfile driver assembleRes with
    | .err s => .err s
    | .val g =>
      if cancel then .val none
      else
        match g with
        | none => .val none
        | some hf =>
          if !validateHeightfield hf then .err .GeneralError
          else .val (some (normalizeNoDataValues noData minValid maxValid hf))

/-! ## Georeferenced rasters and point sampling

The compositor and the assembler work on already-normalized rasters, so
their samples are plain rationals. -/

/-- A `GeoHeightfield`: a raster paired with the GeoExtent it covers, plus
its resolution (used by the sort in the assembler).  `dataAt c r` is the sample
of column `c`, row `r` (row 0 at the y-minimum of the extent, matching the grid
construction in both the assembler and the compositor). -/
structure GeoHF where
  w : ℕ
  h : ℕ
  xmin : ℚ
  xmax : ℚ
  ymin : ℚ
  ymax : ℚ
  dataAt : ℕ → ℕ → ℚ
  res : ℚ

/-- Clamp a pixel index into `[0, n-1]`. -/
def clampIdx (n : ℕ) (i : ℤ) : ℕ :=
  if i < 0 then 0 else min i.toNat (n - 1)

/-- Modelled from the spec: `GeoHeightfield` point sampling
(`heightAt`/`heightAtLocation`) "transforming a query point into pixel space
via the known bounds of the extent" with bilinear interpolation (GeoHeightfield
sources are not in the repository snapshot). -/
def heightAtQ (g : GeoHF) (x y : ℚ) : ℚ :=
  let u : ℚ := (x - g.xmin) / (g.xmax - g.xmin) * ((g.w : ℚ) - 1)
  let v : ℚ := (y - g.ymin) / (g.ymax - g.ymin) * ((g.h : ℚ) - 1)
  let s : ℚ := u - (⌊u⌋ : ℚ)
  let t : ℚ := v - (⌊v⌋ : ℚ)
  let iu0 := clampIdx g.w ⌊u⌋
  let iu1 := clampIdx g.w (⌊u⌋ + 1)
  let iv0 := clampIdx g.h ⌊v⌋
  let iv1 := clampIdx g.h (⌊v⌋ + 1)
  (1 - s) * (1 - t) * g.dataAt iu0 iv0 + s * (1 - t) * g.dataAt iu1 iv0 +
    (1 - s) * t * g.dataAt iu0 iv1 + s * t * g.dataAt iu1 iv1

/-! ## Cross-profile mosaic assembler (ElevationLayer.cpp:216-392) -/

/-- `GeoHeightfield::SortByResolutionFunctor`, modelled from the spec: "Sort
sources by resolution (finest first)" — smaller resolution value first. -/
def SortByResolution (a b : GeoHF) : Prop := a.res ≤ b.res

instance : DecidableRel SortByResolution := fun a b => inferInstanceAs (Decidable (a.res ≤ b.res))

instance : IsTotal GeoHF SortByResolution := ⟨fun a b => le_total a.res b.res⟩

instance : IsTrans GeoHF SortByResolution := ⟨fun _ _ _ h1 h2 => le_trans h1 h2⟩

/-- A working point of the sample grid of the assembler (`glm::dvec3`). -/
structure Point3 where
  x : ℚ
  y : ℚ
  z : ℚ
deriving DecidableEq

/-- The sample-point grid of the assembler (ElevationLayer.cpp:342-351): one point
per output pixel, at pixel centers of the output extent, with
`z = NO_DATA_VALUE`; row-major (`points[r * cols + c]`). -/
def buildGridPoints (cols rows : ℕ) (minx miny maxx maxy : ℚ) : List Point3 :=
  let dx := (maxx - minx) / (cols : ℚ)
  let dy := (maxy - miny) / (rows : ℚ)
  ((List.range rows).map (fun r =>
    (List.range cols).map (fun c =>
      Point3.mk (minx + (dx / 2) + dx * (c : ℚ)) (miny + (dy / 2) + dy * (r : ℚ))
        NO_DATA_VALUE))).flatten

/-- The per-point sampling loop of the assembler (ElevationLayer.cpp:360-366):
`for (i = 0; point.z == NO_DATA_VALUE && i < sources.size(); ++i)
   point.z = sources[i].heightAtLocation(point.x, point.y, BILINEAR);` -/
def samplePointZ (sources : List GeoHF) (p : Point3) : Point3 :=
  { p with z := sources.foldl (fun z s => if z = NO_DATA_VALUE then heightAtQ s p.x p.y else z) p.z }

/-- The source-collection loop of `ElevationLayer::assembleHeightfield`
(ElevationLayer.cpp:271-295): for each intersecting key, run the parent-walk
fallback; keep the sources that fetched, with their final keys. -/
def collectSources (fetch : TileKey → Option GeoHF) (intersectingKeys : List TileKey) :
    List (TileKey × GeoHF) :=
  intersectingKeys.filterMap (walkFetch fetch)

/-- `hasAtLeastOneSourceAtTargetLOD` (ElevationLayer.cpp:269, 287-290). -/
def hasSourceAtTargetLOD (targetLOD : ℕ) (sources : List (TileKey × GeoHF)) : Bool :=
  sources.any (fun kv => kv.1.level = targetLOD)

/-- The assembled `HeightfieldMosaic`: output raster plus the strong
references to the contributing sources (`output->dependencies`). -/
structure Mosaic where
  w : ℕ
  h : ℕ
  dataAt : ℕ → ℕ → ℚ
  dependencies : List GeoHF

/-- The mosaic-building tail of `assembleHeightfield`
(ElevationLayer.cpp:299-382) as intended: output size is the max of the
source sizes; sources sorted by resolution, finest first; a grid of sample
points at output pixel centers is transformed into the source SRS
(`xf`, applied when `xfValid`), each point takes the first non-no-data
sample in finest-to-coarsest order, the heights are transformed back
(`xfInv`), and the final heights are assigned row-major.

The sample-point vector is built here with `rows * cols` elements, the size
the commented-out `.assign(cols*rows, {0,0,NO_DATA_VALUE})` at
ElevationLayer.cpp:335 and the sibling assembler ImageLayer.cpp
(`points.assign(width*height, ...)`) establish as the intent; the code as
written only calls `points.reserve(...)`, leaving `points.size() == 0` — see
`buildMosaicAsWritten`. -/
def buildMosaic (sources : List (TileKey × GeoHF)) (minx miny maxx maxy : ℚ)
    (xf xfInv : Point3 → Point3) (xfValid : Bool) : Mosaic :=
  let cols := sources.foldl (fun m kv => max m kv.2.w) 0
  let rows := sources.foldl (fun m kv => max m kv.2.h) 0
  let sorted := List.insertionSort SortByResolution (sources.map Prod.snd)
  let points := buildGridPoints cols rows minx miny maxx maxy
  let points2 := if xfValid then points.map xf else points
  let points3 := points2.map (samplePointZ sorted)
  let points4 := if xfValid then points3.map xfInv else points3
  { w := cols, h := rows,
    dataAt := fun c r => ((points4.get? (r * cols + c)).map Point3.z).getD NO_DATA_VALUE,
    dependencies := sorted }

/-- The mosaic-building tail as the code actually executes: the point vector
was only `reserve`d (ElevationLayer.cpp:335), so `points.size() == 0`; the
batch transform (`transformArray(&points[0], points.size())`), the sampling
range-for and the inverse transform all run over zero elements, and the
final assignment loop reads back the grid-construction values, whose `z` is
still `NO_DATA_VALUE` for every cell. -/
def buildMosaicAsWritten (sources : List (TileKey × GeoHF)) (minx miny maxx maxy : ℚ) : Mosaic :=
  let cols := sources.foldl (fun m kv => max m kv.2.w) 0
  let rows := sources.foldl (fun m kv => max m kv.2.h) 0
  let sorted := List.insertionSort SortByResolution (sources.map Prod.snd)
  let points := buildGridPoints cols rows minx miny maxx maxy
  { w := cols, h := rows,
    dataAt := fun c r => ((points.get? (r * cols + c)).map Point3.z).getD NO_DATA_VALUE,
    dependencies := sorted }

/-- `ElevationLayer::assembleHeightfield` (ElevationLayer.cpp:216-392):
collect a source per intersecting key via the parent-walk fallback; if at
least one fetched source is at the target LOD, build the mosaic, else leave
the output null.  Cancellation (a constant token here) discards the output
(checked inside the fetch loop at line 281-282 and unconditionally at line
386-389). -/
def assembleHeightfield (intersectingKeys : List TileKey) (targetLOD : ℕ)
    (fetch : TileKey → Option GeoHF) (minx miny maxx maxy : ℚ)
    (xf xfInv : Point3 → Point3) (xfValid : Bool) (cancel : Bool) : Option Mosaic :=
  let sources := collectSources fetch intersectingKeys
  let output : Option Mosaic :=
    if hasSourceAtTargetLOD targetLOD sources then
      some (buildMosaic sources minx miny maxx maxy xf xfInv xfValid)
    else none
  if cancel then none else output

/-- `assembleHeightfield` under the as-written point-vector semantics. -/
def assembleHeightfieldAsWritten (intersectingKeys : List TileKey) (targetLOD : ℕ)
    (fetch : TileKey → Option GeoHF) (minx miny maxx maxy : ℚ) (cancel : Bool) : Option Mosaic :=
  let sources := collectSources fetch intersectingKeys
  let output : Option Mosaic :=
    if hasSourceAtTargetLOD targetLOD sources then
      some (buildMosaicAsWritten sources minx miny maxx maxy)
    else none
  if cancel then none else output

/-- The sample of a possibly-null mosaic at a cell (`NO_DATA_VALUE` when null). -/
def mosaicDataAt (m : Option Mosaic) (c r : ℕ) : ℚ :=
  match m with
  | none => NO_DATA_VALUE
  | some mo => mo.dataAt c r

/-! ## Multi-layer compositor (ElevationLayerVector::populateHeightfield,
ElevationLayer.cpp:579-949)

Per-layer behaviour enters as functions: `bestAvailable` models
`bestAvailableTileKey`, `legal` models `isKeyInLegalRange`, `fetch` models
`createHeightfield(key, io).value` validity (all deterministic, as in a
single request).  The request-local 50-raster cache
(ElevationLayer.cpp:763-884) memoizes exactly these deterministic fetches
and the parent-walk position across cells (eviction clears the rasters but
keeps the walked keys and the failure flags), so it is semantically
transparent and is elided; the per-cell sampling below is the loop body of
lines 792-935. -/

/-- The per-layer state the classification loop consults. -/
structure LayerM where
  isOpen : Bool
  offset : Bool
  minLevel : ℕ
  tileSize : ℕ
  bestAvailable : TileKey → TileKey
  legal : TileKey → Bool
  fetch : TileKey → Option GeoHF

/-- `LayerData` (ElevationLayer.cpp:522-528): a usable layer, its resolved
best-available key, the fallback flag, and its priority index (position in
the layer stack, highest priority last). -/
structure LayerData where
  layer : LayerM
  key : TileKey
  isFallback : Bool
  index : ℕ

/-- The classification loop of `populateHeightfield`
(ElevationLayer.cpp:616-691), iterating the stack in reverse order (highest
priority first).  The input list carries the stack indices, highest first.
`mapRes` models `TileKey::mapResolution(hf->width(), layer->tileSize())`
(modelled from the spec: the resolution-mapped ideal key; TileKey sources
are not in the snapshot).  Returns (contenders, offsets, numFallbackLayers). -/
def classifyAux (key keyToUse : TileKey) (hfW : ℕ) (mapRes : TileKey → ℕ → ℕ → TileKey) :
    List (ℕ × LayerM) → List LayerData × List LayerData × ℕ
  | [] => ([], [], 0)
  | (i, L) :: rest =>
    let r := classifyAux key keyToUse hfW mapRes rest
    if L.isOpen then
      let mappedKey := mapRes keyToUse hfW L.tileSize
      if key.level < L.minLevel then r
      else
        let bestKey := L.bestAvailable mappedKey
        if bestKey.valid then
          let fb : Bool := bestKey ≠ mappedKey
          let ld : LayerData := ⟨L, bestKey, fb, i⟩
          let nf := (if fb then 1 else 0) + r.2.2
          if L.offset then (r.1, ld :: r.2.1, nf)
          else (ld :: r.1, r.2.1, nf)
        else r
    else r

/-- Stack indices paired with layers, highest priority (= last stack
position) first: the iteration order `for (i = size()-1; i >= 0; --i)`. -/
def indexedDesc (layers : List LayerM) : List (ℕ × LayerM) :=
  layers.enum.reverse

/-- The layer classification of `populateHeightfield` over the whole stack. -/
def classify (layers : List LayerM) (key keyToUse : TileKey) (hfW : ℕ)
    (mapRes : TileKey → ℕ → ℕ → TileKey) : List LayerData × List LayerData × ℕ :=
  classifyAux key keyToUse hfW mapRes (indexedDesc layers)

/-- The sample a contender contributes at a point, if any: the parent-walk
fetch (ElevationLayer.cpp:815-843) followed by `heightAt`
(ElevationLayer.cpp:856), `none` when the walk fails or the sample is the
no-data sentinel. -/
def validSample (c : LayerData) (x y : ℚ) : Option ℚ :=
  match walkLegal c.layer.legal c.layer.fetch c.key with
  | none => none
  | some (_, g) =>
    let e := heightAtQ g x y
    if e = NO_DATA_VALUE then none else some e

/-- The contender loop of the general path at one cell
(ElevationLayer.cpp:803-885): iterate contenders in priority order while
`resolvedIndex < 0`, skipping failed layers; a valid non-fallback
heightfield sets `realData`; the first non-no-data sample wins, recording
the stack index of the winning layer.  Returns the winner (stack index, sample)
and the `realData` contribution. -/
def cellResolve (cs : List LayerData) (x y : ℚ) : Option (ℕ × ℚ) × Bool :=
  match cs with
  | [] => (none, false)
  | c :: rest =>
    match walkLegal c.layer.legal c.layer.fetch c.key with
    | none => cellResolve rest x y
    | some (k, g) =>
      let isFallback : Bool := c.isFallback || k ≠ c.key
      let rd := !isFallback
      let e := heightAtQ g x y
      if e = NO_DATA_VALUE then
        let r := cellResolve rest x y
        (r.1, rd || r.2)
      else (some (c.index, e), rd)

/-- The offset loop of the general path at one cell
(ElevationLayer.cpp:887-929), iterated over the offsets vector from back to
front: skip an offset that sits below the resolved contender
(`resolvedIndex >= 0 && offsets[i].index < resolvedIndex`), skip failed
fetches; a successful fetch sets `realData`; a sample that is neither the
no-data sentinel nor zero (`equiv(elevation, 0.0f)`, modelled from the spec
as equality with zero) is added onto the cell. -/
def offsetStep (resolvedIndex : Option ℕ) (x y : ℚ) (acc : ℚ × Bool) (o : LayerData) : ℚ × Bool :=
  if (match resolvedIndex with | some n => decide (o.index < n) | none => false) then acc
  else
    match o.layer.fetch o.key with
    | none => acc
    | some g =>
      let e := heightAtQ g x y
      if e ≠ NO_DATA_VALUE ∧ e ≠ 0 then (acc.1 + e, true) else (acc.1, true)

/-- The whole offset loop at one cell: `for (i = offsets.size()-1; i >= 0; --i)`. -/
def offsetPhase (os : List LayerData) (resolvedIndex : Option ℕ) (v0 : ℚ) (x y : ℚ) : ℚ × Bool :=
  os.reverse.foldl (offsetStep resolvedIndex x y) (v0, false)

/-- Proof-side characterization of the additive contribution of one offset layer
to a cell: its sampled value when the offset is applied (it sits on top of
the resolved contender — or no contender resolved — its fetch succeeds, and
its sample is neither the no-data sentinel nor zero), and `0` otherwise. -/
def offsetContribution (resolvedIndex : Option ℕ) (x y : ℚ) (o : LayerData) : ℚ :=
  if (match resolvedIndex with | some n => decide (o.index < n) | none => false) then 0
  else
    match o.layer.fetch o.key with
    | none => 0
    | some g =>
      let e := heightAtQ g x y
      if e ≠ NO_DATA_VALUE ∧ e ≠ 0 then e else 0

/-- The value one cell of the output holds after the contender write of the
general path (ElevationLayer.cpp:863) and offset additions
(ElevationLayer.cpp:921), given the prior value of the cell `v0`. -/
def cellValueAt (cs os : List LayerData) (x y : ℚ) (v0 : ℚ) : ℚ :=
  match (cellResolve cs x y).1 with
  | some (idx, e) => (offsetPhase os (some idx) e x y).1
  | none => (offsetPhase os none v0 x y).1

/-- The `realData` contribution of one cell. -/
def cellRealData (cs os : List LayerData) (x y : ℚ) : Bool :=
  let r := cellResolve cs x y
  let ri := r.1.map Prod.fst
  r.2 || (offsetPhase os ri 0 x y).2

/-- Write of one output cell (row-major raster as a function). -/
def writeAt (h : ℕ → ℕ → ℚ) (c r : ℕ) (v : ℚ) : ℕ → ℕ → ℚ :=
  fun c1 r1 => if c1 = c ∧ r1 = r then v else h c1 r1

/-- The x world coordinate of output column `c`:
`xmin + dx * c` with `dx = extent.width / (numColumns - 1)`
(ElevationLayer.cpp:708-711, 784). -/
def xAt (xmin exW : ℚ) (numColumns : ℕ) (c : ℕ) : ℚ :=
  xmin + exW / ((numColumns : ℚ) - 1) * (c : ℚ)

/-- The y world coordinate of output row `r` (ElevationLayer.cpp:709-711, 794). -/
def yAt (ymin exH : ℚ) (numRows : ℕ) (r : ℕ) : ℚ :=
  ymin + exH / ((numRows : ℚ) - 1) * (r : ℚ)

/-- One cell of the loop body of the general path (ElevationLayer.cpp:792-935):
resolve the cell at (`c`, `r`) and apply offsets; accumulates `realData`. -/
def sampleCellStep (cs os : List LayerData) (xmin ymin exW exH : ℚ) (W H : ℕ) (c : ℕ)
    (acc2 : (ℕ → ℕ → ℚ) × Bool) (r : ℕ) : (ℕ → ℕ → ℚ) × Bool :=
  (writeAt acc2.1 c r (cellValueAt cs os (xAt xmin exW W c) (yAt ymin exH H r) (acc2.1 c r)),
    acc2.2 || cellRealData cs os (xAt xmin exW W c) (yAt ymin exH H r))

/-- One column of the general path: the row loop at fixed column `c`. -/
def sampleColumn (cs os : List LayerData) (xmin ymin exW exH : ℚ) (W H : ℕ)
    (acc : (ℕ → ℕ → ℚ) × Bool) (c : ℕ) : (ℕ → ℕ → ℚ) × Bool :=
  (List.range H).foldl (sampleCellStep cs os xmin ymin exW exH W H c) acc

/-- The general resampling path (ElevationLayer.cpp:782-936): per column,
per row, resolve the cell and apply offsets; accumulates `realData`. -/
def sampleAll (cs os : List LayerData) (xmin ymin exW exH : ℚ) (W H : ℕ)
    (hf0 : ℕ → ℕ → ℚ) : (ℕ → ℕ → ℚ) × Bool :=
  (List.range W).foldl (sampleColumn cs os xmin ymin exW exH W H) (hf0, false)

/-- The fast-path raw-buffer copy (ElevationLayer.cpp:739-742): the single
raster of the single contender has exactly the output dimensions, so `memcpy` copies it
pixel for pixel. -/
def fastCopy (g : GeoHF) (W H : ℕ) (hf0 : ℕ → ℕ → ℚ) : ℕ → ℕ → ℚ :=
  fun c r => if c < W ∧ r < H then g.dataAt c r else hf0 c r

/-- `resolveInvalidHeights` (ElevationLayer.cpp:532-575): with a geoid,
each invalid cell takes the geoid height at the geodetic lat/lon of the cell
(the geodetic extent enters as `latMin/lonMin/latH/lonW`); with no geoid,
each invalid cell is zero-filled. -/
def resolveInvalidHeights (numCols numRows : ℕ) (latMin lonMin latH lonW : ℚ)
    (invalidValue : ℚ) (geoid : Option (ℚ → ℚ → ℚ)) (grid : ℕ → ℕ → ℚ) : ℕ → ℕ → ℚ :=
  match geoid with
  | some geoidAt =>
    fun c r =>
      if grid c r = invalidValue then
        geoidAt (latMin + latH / ((numRows : ℚ) - 1) * (r : ℚ))
          (lonMin + lonW / ((numCols : ℚ) - 1) * (c : ℚ))
      else grid c r
  | none => fun c r => if grid c r = invalidValue then 0 else grid c r

/-- The outcome of `populateHeightfield`: the early `false` exits
(ElevationLayer.cpp:694-703), the cancelled `false` returns (lines 787-789
and 942-945, which still expose any writes already made), and the normal
return of `realData` (line 948). -/
inductive PopOutcome where
  | noLayers (hf : ℕ → ℕ → ℚ) : PopOutcome
  | allFallback (hf : ℕ → ℕ → ℚ) : PopOutcome
  | canceled (hf : ℕ → ℕ → ℚ) : PopOutcome
  | done (realData : Bool) (hf : ℕ → ℕ → ℚ) : PopOutcome

/-- Whether the run completed without cancellation (returned `realData`). -/
def PopOutcome.isDone : PopOutcome → Bool
  | .done _ _ => true
  | _ => false

/-- The heightfield as left by the run. -/
def PopOutcome.hfOf : PopOutcome → ℕ → ℕ → ℚ
  | .noLayers hf => hf
  | .allFallback hf => hf
  | .canceled hf => hf
  | .done _ hf => hf

/-- `ElevationLayerVector::populateHeightfield` (ElevationLayer.cpp:579-949).
`haeProfile` rewrites the profile of the query key when valid (lines 598-602).
After classification: bail out `false` when no usable layers, or when every
usable layer is fallback; take the fast path when there is exactly one
contender, no offsets, and its fetched raster matches the output dimensions
(raw copy, `realData = true`); otherwise run the general resampling path
(whose per-column cancellation check fires before any write under the
constant cancellation token modelled here).  Finally resolve remaining
invalid heights with a null geoid — the zero-fill branch — and return
`realData`, or `false` under cancellation. -/
def keyToUseOf (key : TileKey) (haeProfile : Option ℕ) : TileKey :=
  match haeProfile with
  | some p => { key with profile := p }
  | none => key

/-- The fast-path guard (ElevationLayer.cpp:725-758): exactly one
contender, no offsets, the fetch succeeds and the dimensions of the raster match
the output — in which case the copied raster is returned. -/
def fastPathHF (cs os : List LayerData) (W H : ℕ) (hf0 : ℕ → ℕ → ℚ) :
    Option (ℕ → ℕ → ℚ) :=
  match cs, os with
  | [c0], [] =>
    match c0.layer.fetch c0.key with
    | some g => if g.w = W ∧ g.h = H then some (fastCopy g W H hf0) else none
    | none => none
  | _, _ => none

def populateHeightfield (layers : List LayerM) (key : TileKey) (haeProfile : Option ℕ)
    (mapRes : TileKey → ℕ → ℕ → TileKey) (W H : ℕ) (xmin ymin exW exH : ℚ)
    (cancel : Bool) (hf0 : ℕ → ℕ → ℚ) : PopOutcome :=
  let cl := classify layers key (keyToUseOf key haeProfile) W mapRes
  let cs := cl.1
  let os := cl.2.1
  let nf := cl.2.2
  if cs.isEmpty && os.isEmpty then .noLayers hf0
  else if cs.length + os.length = nf then .allFallback hf0
  else
    match fastPathHF cs os W H hf0 with
    | some hf1 =>
      let hf2 := resolveInvalidHeights W H ymin xmin exH exW NO_DATA_VALUE none hf1
      if cancel then .canceled hf2 else .done true hf2
    | none =>
      if cancel then .canceled hf0
      else
        let sampled := sampleAll cs os xmin ymin exW exH W H hf0
        .done sampled.2 (resolveInvalidHeights W H ymin xmin exH exW NO_DATA_VALUE none sampled.1)

/-! ## Concrete fixtures used by the witness theorems -/

/-- A valid level-1 tile key. -/
def kA : TileKey := ⟨1, 0, 0, 0, true⟩

/-- A valid level-0 tile key (the parent of `kA`). -/
def kA0 : TileKey := ⟨0, 0, 0, 0, true⟩

/-- A 2x2 raster with constant value `v` over the unit extent, resolution `res`. -/
def constHF (v res : ℚ) : GeoHF :=
  { w := 2, h := 2, xmin := 0, xmax := 1, ymin := 0, ymax := 1,
    dataAt := fun _ _ => v, res := res }

/-- A fetch oracle that only has data at level 0 (used against `kA`). -/
def fetchLevelZeroOnly : TileKey → Option GeoHF :=
  fun k => if k.level = 0 then some (constHF 5 1) else none

/-- The identity resolution mapping (equal tile sizes). -/
def mapResId : TileKey → ℕ → ℕ → TileKey := fun k _ _ => k

/-- An output heightfield prefilled with the no-data sentinel. -/
def hfSentinel : ℕ → ℕ → ℚ := fun _ _ => NO_DATA_VALUE

/-- An open non-offset layer whose every tile is the constant raster `v`. -/
def layerOf (v : ℚ) : LayerM :=
  { isOpen := true, offset := false, minLevel := 0, tileSize := 2,
    bestAvailable := fun k => k, legal := fun _ => true,
    fetch := fun _ => some (constHF v 1) }

/-- An open offset layer whose every tile is the constant raster `v`. -/
def offsetLayerOf (v : ℚ) : LayerM :=
  { isOpen := true, offset := true, minLevel := 0, tileSize := 2,
    bestAvailable := fun k => k, legal := fun _ => true,
    fetch := fun _ => some (constHF v 1) }

/-- An open layer that can only provide fallback data: its best-available
key is the level-0 parent, never the requested key (query it with `kA`). -/
def layerFallbackOnly : LayerM :=
  { isOpen := true, offset := false, minLevel := 0, tileSize := 2,
    bestAvailable := fun _ => kA0, legal := fun _ => true,
    fetch := fun _ => some (constHF 5 1) }

/-! ## Theorems -/

theorem walkFetchAux_invalid {α : Type} (fetch : TileKey → Option α) (fuel : ℕ)
    (k : TileKey) (h : k.valid = false) : walkFetchAux fetch fuel k = none := by
  cases fuel <;> simp [walkFetchAux, h]

theorem walkLegalAux_invalid {α : Type} (legal : TileKey → Bool) (fetch : TileKey → Option α)
    (fuel : ℕ) (k : TileKey) (h : k.valid = false) : walkLegalAux legal fetch fuel k = none := by
  cases fuel <;> simp [walkLegalAux, h]

theorem makeParent_level_zero (k : TileKey) (h : k.level = 0) :
    k.makeParent.valid = false := by
  simp [TileKey.makeParent, h]

theorem makeParent_level_succ (k : TileKey) (n : ℕ) (h : k.level = n + 1) :
    k.makeParent.level = n ∧ k.makeParent.valid = k.valid := by
  simp [TileKey.makeParent, h]

theorem walkFetchAux_congr {α : Type} (fetch : TileKey → Option α) :
    ∀ (n : ℕ) (k : TileKey) (f1 f2 : ℕ), k.level ≤ n → k.level < f1 → k.level < f2 →
      walkFetchAux fetch f1 k = walkFetchAux fetch f2 k := by
  intro n
  induction n with
  | zero =>
    intro k f1 f2 hn h1 h2
    obtain ⟨m1, rfl⟩ : ∃ m1, f1 = m1 + 1 := ⟨f1 - 1, by omega⟩
    obtain ⟨m2, rfl⟩ : ∃ m2, f2 = m2 + 1 := ⟨f2 - 1, by omega⟩
    have hk : k.level = 0 := by omega
    simp only [walkFetchAux]
    cases hv : k.valid
    · rfl
    · cases hf : fetch k
      · have hpar := makeParent_level_zero k hk
        rw [walkFetchAux_invalid fetch m1 _ hpar, walkFetchAux_invalid fetch m2 _ hpar]
      · rfl
  | succ n ih =>
    intro k f1 f2 hn h1 h2
    rcases Nat.lt_or_ge k.level (n + 1) with hlt | hge
    · exact ih k f1 f2 (by omega) h1 h2
    · have hk : k.level = n + 1 := by omega
      obtain ⟨m1, rfl⟩ : ∃ m1, f1 = m1 + 1 := ⟨f1 - 1, by omega⟩
      obtain ⟨m2, rfl⟩ : ∃ m2, f2 = m2 + 1 := ⟨f2 - 1, by omega⟩
      simp only [walkFetchAux]
      cases hv : k.valid
      · rfl
      · cases hf : fetch k
        · have hpar := makeParent_level_succ k n hk
          exact ih k.makeParent m1 m2 (by omega) (by omega) (by omega)
        · rfl

theorem walkLegalAux_congr {α : Type} (legal : TileKey → Bool) (fetch : TileKey → Option α) :
    ∀ (n : ℕ) (k : TileKey) (f1 f2 : ℕ), k.level ≤ n → k.level < f1 → k.level < f2 →
      walkLegalAux legal fetch f1 k = walkLegalAux legal fetch f2 k := by
  intro n
  induction n with
  | zero =>
    intro k f1 f2 hn h1 h2
    obtain ⟨m1, rfl⟩ : ∃ m1, f1 = m1 + 1 := ⟨f1 - 1, by omega⟩
    obtain ⟨m2, rfl⟩ : ∃ m2, f2 = m2 + 1 := ⟨f2 - 1, by omega⟩
    have hk : k.level = 0 := by omega
    simp only [walkLegalAux]
    cases hv : (k.valid && legal k)
    · rfl
    · cases hf : fetch k
      · have hpar := makeParent_level_zero k hk
        rw [walkLegalAux_invalid legal fetch m1 _ hpar, walkLegalAux_invalid legal fetch m2 _ hpar]
      · rfl
  | succ n ih =>
    intro k f1 f2 hn h1 h2
    rcases Nat.lt_or_ge k.level (n + 1) with hlt | hge
    · exact ih k f1 f2 (by omega) h1 h2
    · have hk : k.level = n + 1 := by omega
      obtain ⟨m1, rfl⟩ : ∃ m1, f1 = m1 + 1 := ⟨f1 - 1, by omega⟩
      obtain ⟨m2, rfl⟩ : ∃ m2, f2 = m2 + 1 := ⟨f2 - 1, by omega⟩
      simp only [walkLegalAux]
      cases hv : (k.valid && legal k)
      · rfl
      · cases hf : fetch k
        · have hpar := makeParent_level_succ k n hk
          exact ih k.makeParent m1 m2 (by omega) (by omega) (by omega)
        · rfl

/-- C9: Every parent-walk fallback loop terminates for every input key, even
when no ancestor tile has data: both in the per-intersecting-key walk of `assembleHeightfield` (`walkFetchAux`) and in the per-contender walk of `populateHeightfield` (`walkLegalAux`), each failed fetch replaces the key by
its parent, which strictly decreases the level until the key becomes
invalid; hence the result of the loop is already stable at `level + 1`
iterations of fuel — giving it any more fuel changes nothing, so the loop
never runs forever. -/
theorem parent_walk_terminates {α β : Type} (fetch : TileKey → Option α)
    (legal : TileKey → Bool) (fetchB : TileKey → Option β) (k : TileKey) (extra : ℕ) :
    walkFetchAux fetch (k.level + 1 + extra) k = walkFetch fetch k ∧
      walkLegalAux legal fetchB (k.level + 1 + extra) k = walkLegal legal fetchB k := by
  constructor
  · exact walkFetchAux_congr fetch k.level k (k.level + 1 + extra) (k.level + 1)
      (le_refl _) (by omega) (by omega)
  · exact walkLegalAux_congr legal fetchB k.level k (k.level + 1 + extra) (k.level + 1)
      (le_refl _) (by omega) (by omega)

/-- C1 counterexample: with one intersecting key at level 1 (`targetLOD = 1`)
and a source that only has data at level 0, the parent-walk fetch succeeds
(one source is collected, a fallback at level 0), no fetched source reached
the target LOD — and `assembleHeightfield` returns the empty result instead
of building a mosaic from the fallback source, contradicting the claim. -/
theorem assemble_fallback_only_returns_empty :
    (collectSources fetchLevelZeroOnly [kA]).length = 1 ∧
      hasSourceAtTargetLOD 1 (collectSources fetchLevelZeroOnly [kA]) = false ∧
      (assembleHeightfield [kA] 1 fetchLevelZeroOnly 0 0 1 1 id id false false).isNone = true := by
  decide

/-- C1 amended: in `assembleHeightfield`, when at least one intersecting
source fetches successfully but no fetched source reached the target level
of detail (every source is fallback), the assembler does not proceed: it
returns the empty result.  It builds and returns a mosaic exactly when at
least one fetched source is at the target LOD and cancellation is not
flagged. -/
theorem assemble_requires_source_at_targetLOD (intersectingKeys : List TileKey)
    (targetLOD : ℕ) (fetch : TileKey → Option GeoHF) (minx miny maxx maxy : ℚ)
    (xf xfInv : Point3 → Point3) (xfValid cancel : Bool) :
    (hasSourceAtTargetLOD targetLOD (collectSources fetch intersectingKeys) = false →
      assembleHeightfield intersectingKeys targetLOD fetch minx miny maxx maxy
        xf xfInv xfValid cancel = none) ∧
    (cancel = false →
      hasSourceAtTargetLOD targetLOD (collectSources fetch intersectingKeys) = true →
      (assembleHeightfield intersectingKeys targetLOD fetch minx miny maxx maxy
        xf xfInv xfValid cancel).isSome = true) := by
  constructor
  · intro h
    simp [assembleHeightfield, h]
  · intro hc h
    simp [assembleHeightfield, h, hc]

theorem assemble_requires_source_at_targetLOD_witness :
    hasSourceAtTargetLOD 0 (collectSources fetchLevelZeroOnly [kA0]) = true ∧
      (assembleHeightfield [kA0] 0 fetchLevelZeroOnly 0 0 1 1 id id false false).isSome = true ∧
      hasSourceAtTargetLOD 1 (collectSources fetchLevelZeroOnly [kA]) = false ∧
      assembleHeightfield [kA] 1 fetchLevelZeroOnly 0 0 1 1 id id false false = none := by
  refine ⟨by decide, ?_, by decide, ?_⟩
  · exact (assemble_requires_source_at_targetLOD [kA0] 0 fetchLevelZeroOnly 0 0 1 1
      id id false false).2 rfl (by decide)
  · exact (assemble_requires_source_at_targetLOD [kA] 1 fetchLevelZeroOnly 0 0 1 1
      id id false false).1 (by decide)

/-- C5: Every heightfield returned successfully by
`createHeightfieldInKeyProfile` has been normalized: each sample either is
the canonical no-data sentinel, or is a non-NaN value different from the
configured no-data value and inside `[minValidValue, maxValidValue]` — so
any sample that was NaN, equal to the configured no-data value, or out of
range has been overwritten with the sentinel before the result is returned. -/
theorem createHeightfieldInKeyProfile_normalized (pv op lg sp cancel : Bool)
    (driver : ResultG) (aRes : Option HFp) (nD mn mx : ℚ) (g : HFp)
    (h : createHeightfieldInKeyProfile pv op lg sp cancel driver aRes nD mn mx = .val (some g)) :
    ∀ f ∈ g.data, f = NO_DATA_F ∨
      (f.isnan = false ∧ f.equivF (.fin nD) = false ∧
        f.ltF (.fin mn) = false ∧ f.gtF (.fin mx) = false) := by
  unfold createHeightfieldInKeyProfile at h
  split at h
  · simp at h
  · split at h
    · simp at h
    · split at h
      · simp at h
      · split at h
        · simp at h
        · split at h
          · simp at h
          · split at h
            · simp at h
            · rename_i hf hv
              rw [ResultG.val.injEq, Option.some.injEq] at h
              subst h
              intro f hf2
              unfold normalizeNoDataValues at hf2
              simp only [List.mem_map] at hf2
              obtain ⟨orig, _, rfl⟩ := hf2
              unfold normalizePixel
              by_cases hcond : (orig.isnan || orig.equivF (.fin nD) ||
                  orig.ltF (.fin mn) || orig.gtF (.fin mx)) = true
              · left
                simp [hcond]
              · right
                simp only [Bool.or_eq_true, not_or, Bool.not_eq_true] at hcond
                simp [hcond.1.1.1, hcond.1.1.2, hcond.1.2, hcond.2]

theorem createHeightfieldInKeyProfile_normalized_witness :
    createHeightfieldInKeyProfile true true true true false
        (.val (some ⟨1, 1, [FVal.fin 7]⟩)) none (-9999) (-32000) 32000 =
      .val (some ⟨1, 1, [FVal.fin 7]⟩) ∧
    (FVal.fin 7 = NO_DATA_F ∨
      ((FVal.fin 7).isnan = false ∧ (FVal.fin 7).equivF (.fin (-9999)) = false ∧
        (FVal.fin 7).ltF (.fin (-32000)) = false ∧ (FVal.fin 7).gtF (.fin 32000) = false)) := by
  constructor
  · decide
  · exact createHeightfieldInKeyProfile_normalized true true true true false
      (.val (some ⟨1, 1, [FVal.fin 7]⟩)) none (-9999) (-32000) 32000
      ⟨1, 1, [FVal.fin 7]⟩ (by decide) (FVal.fin 7) (by decide)

/-- C6 counterexample: with a valid profile, an open layer, a legal key and
the native-profile path, a driver failure with status `ResourceUnavailable`
(exactly what `GDALElevationLayer::createHeightfieldImplementation` returns
whenever it cannot produce an image, GDALElevationLayer.cpp:177) is
propagated verbatim by `createHeightfieldInKeyProfile`
(ElevationLayer.cpp:452-453) — so the result is `ResourceUnavailable`
although the profile of the layer is valid and the layer is open, refuting the
claimed "iff" classification. -/
theorem status_not_iff_profile_or_open :
    createHeightfieldInKeyProfile true true true true false
        (.err .ResourceUnavailable) none 0 (-32000) 32000 = .err .ResourceUnavailable := by
  decide

/-- C6 amended: the result status of `createHeightfieldInKeyProfile` is
classified exactly as follows, where a failed status of the acquisition step
(the driver in the native-profile path) is returned verbatim:
`ResourceUnavailable` iff the profile of the layer is invalid or the layer is not
open, or the key is legal and the acquisition itself fails with
`ResourceUnavailable`; the non-error INVALID result iff the profile is valid
and the layer open, and either the key is outside the legal range, or the
acquisition does not fail and cancellation is flagged or no heightfield was
produced; and `GeneralError` iff the key is legal and either the acquisition
fails with `GeneralError`, or (absent cancellation) the width or height of the produced
heightfield lies outside [1, 1024]. -/
theorem createHeightfieldInKeyProfile_status_classification
    (pv op lg sp cancel : Bool) (driver : ResultG) (aRes : Option HFp) (nD mn mx : ℚ) :
    (createHeightfieldInKeyProfile pv op lg sp cancel driver aRes nD mn mx =
        .err .ResourceUnavailable ↔
      pv = false ∨ op = false ∨
        (lg = true ∧ acquiredResult sp driver aRes = .err .ResourceUnavailable)) ∧
    (createHeightfieldInKeyProfile pv op lg sp cancel driver aRes nD mn mx = .val none ↔
      pv = true ∧ op = true ∧
        (lg = false ∨ ∃ g, acquiredResult sp driver aRes = .val g ∧
          (cancel = true ∨ g = none))) ∧
    (createHeightfieldInKeyProfile pv op lg sp cancel driver aRes nD mn mx =
        .err .GeneralError ↔
      pv = true ∧ op = true ∧ lg = true ∧
        (acquiredResult sp driver aRes = .err .GeneralError ∨
          (cancel = false ∧ ∃ hf, acquiredResult sp driver aRes = .val (some hf) ∧
            validateHeightfield hf = false))) := by
  rcases hA : acquiredResult sp driver aRes with s | g
  · cases pv <;> cases op <;> cases lg <;> cases cancel <;> cases s <;>
      simp [createHeightfieldInKeyProfile, hA]
  · cases pv <;> cases op <;> cases lg <;> cases cancel <;>
      rcases g with _ | hf <;>
      simp [createHeightfieldInKeyProfile, hA] <;>
      by_cases hv : validateHeightfield hf <;> simp [hv]

theorem classifyAux_fallback_count (key keyToUse : TileKey) (hfW : ℕ)
    (mapRes : TileKey → ℕ → ℕ → TileKey) :
    ∀ l : List (ℕ × LayerM),
      (classifyAux key keyToUse hfW mapRes l).2.2 =
        ((classifyAux key keyToUse hfW mapRes l).1 ++
          (classifyAux key keyToUse hfW mapRes l).2.1).countP (fun ld => ld.isFallback) := by
  intro l
  induction l with
  | nil => simp [classifyAux]
  | cons p rest ih =>
    obtain ⟨i, L⟩ := p
    simp only [classifyAux]
    split
    · split
      · exact ih
      · split
        · split
          · simp only [List.countP_append] at ih ⊢
            simp only [List.countP_cons, ih]
            split <;> omega
          · simp only [List.countP_append] at ih ⊢
            simp only [List.countP_cons, ih]
            split <;> omega
        · exact ih
    · exact ih

/-- C3: `populateHeightfield` returns `false` without writing any sample
into the target heightfield (the outcome carries the untouched input
raster) whenever there are no usable layers at all, or whenever every
usable layer — contenders plus offsets together — is fallback-only (its
best-available key differs from its resolution-mapped ideal key, which is
exactly the `isFallback` flag `classifyAux` computes). -/
theorem populate_fallback_only_early_exit (layers : List LayerM) (key : TileKey)
    (haeProfile : Option ℕ) (mapRes : TileKey → ℕ → ℕ → TileKey) (W H : ℕ)
    (xmin ymin exW exH : ℚ) (cancel : Bool) (hf0 : ℕ → ℕ → ℚ)
    (h : ((classify layers key (keyToUseOf key haeProfile) W mapRes).1 = [] ∧
          (classify layers key (keyToUseOf key haeProfile) W mapRes).2.1 = []) ∨
         (∀ ld ∈ (classify layers key (keyToUseOf key haeProfile) W mapRes).1 ++
            (classify layers key (keyToUseOf key haeProfile) W mapRes).2.1,
            ld.isFallback = true)) :
    populateHeightfield layers key haeProfile mapRes W H xmin ymin exW exH cancel hf0 =
        .noLayers hf0 ∨
      populateHeightfield layers key haeProfile mapRes W H xmin ymin exW exH cancel hf0 =
        .allFallback hf0 := by
  by_cases hemp : (classify layers key (keyToUseOf key haeProfile) W mapRes).1 = [] ∧
      (classify layers key (keyToUseOf key haeProfile) W mapRes).2.1 = []
  · left
    unfold populateHeightfield
    simp [hemp.1, hemp.2]
  · rcases h with h | h
    · exact absurd h hemp
    · right
      have hcnt := classifyAux_fallback_count key (keyToUseOf key haeProfile) W mapRes
        (indexedDesc layers)
      have hall : ((classify layers key (keyToUseOf key haeProfile) W mapRes).1 ++
          (classify layers key (keyToUseOf key haeProfile) W mapRes).2.1).countP
            (fun ld => ld.isFallback) =
          ((classify layers key (keyToUseOf key haeProfile) W mapRes).1 ++
            (classify layers key (keyToUseOf key haeProfile) W mapRes).2.1).length := by
        rw [List.countP_eq_length]
        intro ld hld
        simp [h ld hld]
      have hnf : (classify layers key (keyToUseOf key haeProfile) W mapRes).2.2 =
          (classify layers key (keyToUseOf key haeProfile) W mapRes).1.length +
            (classify layers key (keyToUseOf key haeProfile) W mapRes).2.1.length := by
        unfold classify at hcnt hall ⊢
        rw [hcnt, hall, List.length_append]
      have hne : ¬((classify layers key (keyToUseOf key haeProfile) W mapRes).1.isEmpty &&
          (classify layers key (keyToUseOf key haeProfile) W mapRes).2.1.isEmpty) = true := by
        simp only [Bool.and_eq_true, List.isEmpty_iff]
        exact fun hc => hemp hc
      simp [populateHeightfield, hnf, hne]

theorem populate_fallback_only_early_exit_witness :
    (∀ ld ∈ (classify [layerFallbackOnly] kA (keyToUseOf kA none) 2 mapResId).1 ++
        (classify [layerFallbackOnly] kA (keyToUseOf kA none) 2 mapResId).2.1,
        ld.isFallback = true) ∧
    (populateHeightfield [layerFallbackOnly] kA none mapResId 2 2 0 0 1 1 false hfSentinel =
        .noLayers hfSentinel ∨
      populateHeightfield [layerFallbackOnly] kA none mapResId 2 2 0 0 1 1 false hfSentinel =
        .allFallback hfSentinel) := by
  constructor
  · decide
  · exact populate_fallback_only_early_exit [layerFallbackOnly] kA none mapResId 2 2 0 0 1 1
      false hfSentinel (Or.inr (by decide))

theorem cellResolve_cons_some (c : LayerData) (rest : List LayerData) (x y e : ℚ)
    (h : validSample c x y = some e) :
    (cellResolve (c :: rest) x y).1 = some (c.index, e) := by
  rcases hw : walkLegal c.layer.legal c.layer.fetch c.key with _ | kg
  · simp [validSample, hw] at h
  · obtain ⟨k, g⟩ := kg
    simp only [validSample, hw] at h
    by_cases hnd : heightAtQ g x y = NO_DATA_VALUE
    · simp [hnd] at h
    · rw [if_neg hnd, Option.some.injEq] at h
      rw [h] at hnd
      simp [cellResolve, hw, hnd, h]

theorem cellResolve_cons_none (c : LayerData) (rest : List LayerData) (x y : ℚ)
    (h : validSample c x y = none) :
    (cellResolve (c :: rest) x y).1 = (cellResolve rest x y).1 := by
  rcases hw : walkLegal c.layer.legal c.layer.fetch c.key with _ | kg
  · simp [cellResolve, hw]
  · obtain ⟨k, g⟩ := kg
    simp only [validSample, hw] at h
    by_cases hnd : heightAtQ g x y = NO_DATA_VALUE
    · simp [cellResolve, hw, hnd]
    · rw [if_neg hnd] at h
      simp at h

theorem cellResolve_first_valid :
    ∀ (cs : List LayerData) (x y : ℚ) (a : ℕ) (ha : a < cs.length),
      validSample (cs.get ⟨a, ha⟩) x y ≠ none →
      ∃ (w : ℕ) (hw : w < cs.length) (e : ℚ),
        w ≤ a ∧ validSample (cs.get ⟨w, hw⟩) x y = some e ∧
        (cellResolve cs x y).1 = some ((cs.get ⟨w, hw⟩).index, e) ∧
        ∀ (j : ℕ) (hj : j < cs.length), j < w → validSample (cs.get ⟨j, hj⟩) x y = none := by
  intro cs
  induction cs with
  | nil =>
    intro x y a ha
    exact absurd ha (by simp)
  | cons c rest ih =>
    intro x y a ha hA
    rcases hv : validSample c x y with _ | e
    · have ha0 : a ≠ 0 := by
        rintro rfl
        exact hA hv
      obtain ⟨a1, rfl⟩ : ∃ a1, a = a1 + 1 := ⟨a - 1, by omega⟩
      have ha1 : a1 < rest.length := by
        simpa using ha
      have hA1 : validSample (rest.get ⟨a1, ha1⟩) x y ≠ none := hA
      obtain ⟨w, hw, e, hwa, hws, hcr, hprior⟩ := ih x y a1 ha1 hA1
      refine ⟨w + 1, by simpa using Nat.succ_lt_succ hw, e, by omega, hws, ?_, ?_⟩
      · rw [cellResolve_cons_none c rest x y hv]
        exact hcr
      · intro j hj hjw
        cases j with
        | zero => exact hv
        | succ j1 => exact hprior j1 (by simpa using hj) (by omega)
    · refine ⟨0, by simp, e, by omega, hv, cellResolve_cons_some c rest x y e hv, ?_⟩
      intro j hj hj0
      omega

theorem sampleColumn_rows (cs os : List LayerData) (xmin ymin exW exH : ℚ) (W H : ℕ) (c : ℕ) :
    ∀ (rs : List ℕ), rs.Nodup → ∀ (h : ℕ → ℕ → ℚ) (rd : Bool) (c1 r1 : ℕ),
      ((rs.foldl (sampleCellStep cs os xmin ymin exW exH W H c) (h, rd)).1) c1 r1 =
        if c1 = c ∧ r1 ∈ rs then
          cellValueAt cs os (xAt xmin exW W c) (yAt ymin exH H r1) (h c r1)
        else h c1 r1 := by
  intro rs
  induction rs with
  | nil => intro _ h rd c1 r1; simp
  | cons rr rest ihr =>
    intro hnd h rd c1 r1
    have hnd2 : rest.Nodup := hnd.of_cons
    have hnotmem : rr ∉ rest := by
      simp only [List.nodup_cons] at hnd
      exact hnd.1
    simp only [List.foldl_cons]
    rw [ihr hnd2 _ _ c1 r1]
    by_cases h1c : c1 = c
    · subst h1c
      by_cases hmem : r1 ∈ rest
      · have hne : r1 ≠ rr := fun hh => hnotmem (hh ▸ hmem)
        simp [hmem, hne, sampleCellStep, writeAt]
      · by_cases hrr : r1 = rr
        · subst hrr
          simp [hmem, sampleCellStep, writeAt]
        · simp [hmem, hrr, sampleCellStep, writeAt]
    · simp [h1c, sampleCellStep, writeAt]

theorem sampleAll_columns (cs os : List LayerData) (xmin ymin exW exH : ℚ) (W H : ℕ) :
    ∀ (csl : List ℕ), csl.Nodup → ∀ (h : ℕ → ℕ → ℚ) (rd : Bool) (c1 r1 : ℕ),
      ((csl.foldl (sampleColumn cs os xmin ymin exW exH W H) (h, rd)).1) c1 r1 =
        if c1 ∈ csl ∧ r1 ∈ List.range H then
          cellValueAt cs os (xAt xmin exW W c1) (yAt ymin exH H r1) (h c1 r1)
        else h c1 r1 := by
  intro csl
  induction csl with
  | nil => intro _ h rd c1 r1; simp
  | cons cc rest ihc =>
    intro hnd h rd c1 r1
    have hnd2 : rest.Nodup := hnd.of_cons
    have hnotmem : cc ∉ rest := by
      simp only [List.nodup_cons] at hnd
      exact hnd.1
    simp only [List.foldl_cons]
    have hP := sampleColumn_rows cs os xmin ymin exW exH W H cc (List.range H)
      (List.nodup_range _) h rd
    rw [ihc hnd2 _ _ c1 r1]
    by_cases hc1m : c1 ∈ rest
    · have hne : c1 ≠ cc := fun hh => hnotmem (hh ▸ hc1m)
      unfold sampleColumn
      rw [hP c1 r1]
      simp [hc1m, hne]
    · by_cases hcc : c1 = cc
      · subst hcc
        unfold sampleColumn
        rw [hP c1 r1]
        simp [hc1m]
      · unfold sampleColumn
        rw [hP c1 r1]
        simp [hc1m, hcc]

theorem sampleAll_apply (cs os : List LayerData) (xmin ymin exW exH : ℚ) (W H : ℕ)
    (hf0 : ℕ → ℕ → ℚ) (c r : ℕ) :
    (sampleAll cs os xmin ymin exW exH W H hf0).1 c r =
      if c < W ∧ r < H then
        cellValueAt cs os (xAt xmin exW W c) (yAt ymin exH H r) (hf0 c r)
      else hf0 c r := by
  unfold sampleAll
  rw [sampleAll_columns cs os xmin ymin exW exH W H (List.range W) (List.nodup_range _)
    hf0 false c r]
  simp [List.mem_range]

theorem classifyAux_mem_index (key keyToUse : TileKey) (hfW : ℕ)
    (mapRes : TileKey → ℕ → ℕ → TileKey) :
    ∀ (l : List (ℕ × LayerM)) (ld : LayerData),
      (ld ∈ (classifyAux key keyToUse hfW mapRes l).1 ∨
        ld ∈ (classifyAux key keyToUse hfW mapRes l).2.1) →
      ld.index ∈ l.map Prod.fst := by
  intro l
  induction l with
  | nil => intro ld h; simp [classifyAux] at h
  | cons p rest ih =>
    obtain ⟨i, L⟩ := p
    intro ld h
    simp only [classifyAux] at h
    simp only [List.map_cons, List.mem_cons]
    split at h
    · split at h
      · exact Or.inr (ih ld h)
      · split at h
        · split at h
          · rcases h with h | h
            · exact Or.inr (ih ld (Or.inl h))
            · rcases List.mem_cons.mp h with rfl | h
              · exact Or.inl rfl
              · exact Or.inr (ih ld (Or.inr h))
          · rcases h with h | h
            · rcases List.mem_cons.mp h with rfl | h
              · exact Or.inl rfl
              · exact Or.inr (ih ld (Or.inl h))
            · exact Or.inr (ih ld (Or.inr h))
        · exact Or.inr (ih ld h)
    · exact Or.inr (ih ld h)

theorem classifyAux_index_lt (key keyToUse : TileKey) (hfW : ℕ)
    (mapRes : TileKey → ℕ → ℕ → TileKey) :
    ∀ (l : List (ℕ × LayerM)),
      l.Pairwise (fun p q : ℕ × LayerM => q.1 < p.1) →
      (classifyAux key keyToUse hfW mapRes l).1.Pairwise
          (fun u v : LayerData => v.index < u.index) ∧
        (classifyAux key keyToUse hfW mapRes l).2.1.Pairwise
          (fun u v : LayerData => v.index < u.index) := by
  intro l
  induction l with
  | nil => intro _; simp [classifyAux]
  | cons p rest ih =>
    obtain ⟨i, L⟩ := p
    intro hp
    rw [List.pairwise_cons] at hp
    obtain ⟨hhead, hrest⟩ := hp
    have ihr := ih hrest
    have hbelow : ∀ ld : LayerData,
        (ld ∈ (classifyAux key keyToUse hfW mapRes rest).1 ∨
          ld ∈ (classifyAux key keyToUse hfW mapRes rest).2.1) → ld.index < i := by
      intro ld hld
      have hmem := classifyAux_mem_index key keyToUse hfW mapRes rest ld hld
      rw [List.mem_map] at hmem
      obtain ⟨q, hq, hqi⟩ := hmem
      exact hqi ▸ hhead q hq
    simp only [classifyAux]
    split
    · split
      · exact ihr
      · split
        · split
          · refine ⟨ihr.1, ?_⟩
            rw [List.pairwise_cons]
            exact ⟨fun v hv => hbelow v (Or.inr hv), ihr.2⟩
          · refine ⟨?_, ihr.2⟩
            rw [List.pairwise_cons]
            exact ⟨fun v hv => hbelow v (Or.inl hv), ihr.1⟩
        · exact ihr
    · exact ihr

theorem indexedDesc_pairwise (layers : List LayerM) :
    (indexedDesc layers).Pairwise (fun p q : ℕ × LayerM => q.1 < p.1) := by
  unfold indexedDesc
  rw [List.pairwise_reverse]
  have h1 : (layers.enum.map Prod.fst).Pairwise (· < ·) := by
    rw [List.enum_map_fst]
    exact List.pairwise_lt_range _
  rw [List.pairwise_map] at h1
  exact h1

theorem classify_contenders_desc (layers : List LayerM) (key keyToUse : TileKey) (hfW : ℕ)
    (mapRes : TileKey → ℕ → ℕ → TileKey) :
    (classify layers key keyToUse hfW mapRes).1.Pairwise
      (fun u v : LayerData => v.index < u.index) :=
  (classifyAux_index_lt key keyToUse hfW mapRes (indexedDesc layers)
    (indexedDesc_pairwise layers)).1

/-- C2: priority invariant of the general path of `populateHeightfield`.  Among
the contenders (which `classify` orders by strictly descending stack index,
i.e. highest priority first), let A sit at a later stack position (higher
priority, larger index) than B, and let both yield valid non-no-data
samples at the output cell (`c`, `r`).  Then the winning contender is the
first one, in priority order, with a valid sample: its stack index is at
least that of A — in particular strictly above that of B, so the winner is never
B — and the value written to the cell equals the sample of the winner;
when every contender of higher priority than A yields no valid sample
there, the winner is A itself and the value of the cell equals the sample
of A. -/
theorem populate_priority_invariant (layers : List LayerM) (key : TileKey)
    (haeProfile : Option ℕ) (mapRes : TileKey → ℕ → ℕ → TileKey) (W H : ℕ)
    (xmin ymin exW exH : ℚ) (hf0 : ℕ → ℕ → ℚ) (c r a b : ℕ) (cs : List LayerData)
    (hcs : cs = (classify layers key (keyToUseOf key haeProfile) W mapRes).1)
    (hc : c < W) (hr : r < H) (ha : a < cs.length) (hb : b < cs.length)
    (hAB : (cs.get ⟨b, hb⟩).index < (cs.get ⟨a, ha⟩).index)
    (hA : validSample (cs.get ⟨a, ha⟩) (xAt xmin exW W c) (yAt ymin exH H r) ≠ none)
    (hB : validSample (cs.get ⟨b, hb⟩) (xAt xmin exW W c) (yAt ymin exH H r) ≠ none) :
    ∃ (w : ℕ) (hw : w < cs.length) (e : ℚ),
      w ≤ a ∧
      (cs.get ⟨a, ha⟩).index ≤ (cs.get ⟨w, hw⟩).index ∧
      (cs.get ⟨b, hb⟩).index < (cs.get ⟨w, hw⟩).index ∧
      validSample (cs.get ⟨w, hw⟩) (xAt xmin exW W c) (yAt ymin exH H r) = some e ∧
      (sampleAll cs [] xmin ymin exW exH W H hf0).1 c r = e ∧
      ((∀ (j : ℕ) (hj : j < cs.length), j < a →
          validSample (cs.get ⟨j, hj⟩) (xAt xmin exW W c) (yAt ymin exH H r) = none) →
        validSample (cs.get ⟨a, ha⟩) (xAt xmin exW W c) (yAt ymin exH H r) = some e) := by
  have hdesc : cs.Pairwise (fun u v : LayerData => v.index < u.index) := by
    rw [hcs]
    exact classify_contenders_desc layers key (keyToUseOf key haeProfile) W mapRes
  obtain ⟨w, hw, e, hwa, hws, hcr, hprior⟩ :=
    cellResolve_first_valid cs (xAt xmin exW W c) (yAt ymin exH H r) a ha hA
  have hIa : (cs.get ⟨a, ha⟩).index ≤ (cs.get ⟨w, hw⟩).index := by
    rcases Nat.lt_or_ge w a with hlt | hge
    · exact le_of_lt ((List.pairwise_iff_get.mp hdesc) ⟨w, hw⟩ ⟨a, ha⟩ hlt)
    · have hwe : w = a := le_antisymm hwa hge
      subst hwe
      exact le_refl _
  refine ⟨w, hw, e, hwa, hIa, lt_of_lt_of_le hAB hIa, hws, ?_, ?_⟩
  · rw [sampleAll_apply]
    rw [if_pos ⟨hc, hr⟩]
    simp [cellValueAt, hcr, offsetPhase]
  · intro hall
    rcases Nat.lt_or_ge w a with hlt | hge
    · rw [hall w hw hlt] at hws
      exact absurd hws (by simp)
    · have hwe : w = a := le_antisymm hwa hge
      subst hwe
      exact hws

theorem populate_priority_invariant_witness :
    (sampleAll (classify [layerOf 7, layerOf 5] kA (keyToUseOf kA none) 2 mapResId).1 []
        0 0 1 1 2 2 hfSentinel).1 0 0 = 5 := by
  have hx : xAt 0 1 2 0 = 0 := by norm_num [xAt]
  have hy : yAt 0 1 2 0 = 0 := by norm_num [yAt]
  have hval5 : heightAtQ (constHF 5 1) 0 0 = 5 := by
    norm_num [heightAtQ, constHF, clampIdx]
  have hval7 : heightAtQ (constHF 7 1) 0 0 = 7 := by
    norm_num [heightAtQ, constHF, clampIdx]
  have hw5 : walkLegal (layerOf 5).legal (layerOf 5).fetch kA = some (kA, constHF 5 1) := rfl
  have hw7 : walkLegal (layerOf 7).legal (layerOf 7).fetch kA = some (kA, constHF 7 1) := rfl
  have hA : validSample ⟨layerOf 5, kA, false, 1⟩ (xAt 0 1 2 0) (yAt 0 1 2 0) = some 5 := by
    rw [hx, hy]
    simp only [validSample, hw5, hval5]
    norm_num [NO_DATA_VALUE]
  have hB : validSample ⟨layerOf 7, kA, false, 0⟩ (xAt 0 1 2 0) (yAt 0 1 2 0) = some 7 := by
    rw [hx, hy]
    simp only [validSample, hw7, hval7]
    norm_num [NO_DATA_VALUE]
  have hget0 : ((classify [layerOf 7, layerOf 5] kA (keyToUseOf kA none) 2 mapResId).1.get
      ⟨0, by decide⟩) = (⟨layerOf 5, kA, false, 1⟩ : LayerData) := rfl
  have hget1 : ((classify [layerOf 7, layerOf 5] kA (keyToUseOf kA none) 2 mapResId).1.get
      ⟨1, by decide⟩) = (⟨layerOf 7, kA, false, 0⟩ : LayerData) := rfl
  obtain ⟨w, hw, e, hwa, hIa, hIb, hws, hval, hlast⟩ :=
    populate_priority_invariant [layerOf 7, layerOf 5] kA none mapResId 2 2 0 0 1 1
      hfSentinel 0 0 0 1
      (classify [layerOf 7, layerOf 5] kA (keyToUseOf kA none) 2 mapResId).1 rfl
      (by decide) (by decide) (by decide) (by decide) (by decide)
      (by rw [hget0, hA]; simp) (by rw [hget1, hB]; simp)
  have hlast2 := hlast (fun j hj hj0 => absurd hj0 (by omega))
  rw [hget0, hA] at hlast2
  have he : 5 = e := by injection hlast2
  rw [hval, ← he]

theorem offsetStep_fst (ri : Option ℕ) (x y : ℚ) (acc : ℚ × Bool) (o : LayerData) :
    (offsetStep ri x y acc o).1 = acc.1 + offsetContribution ri x y o := by
  unfold offsetStep offsetContribution
  split
  · simp
  · split
    · simp
    · rename_i g heq
      by_cases hcond : heightAtQ g x y ≠ NO_DATA_VALUE ∧ heightAtQ g x y ≠ 0 <;>
        simp [hcond]

theorem foldl_offsetStep (ri : Option ℕ) (x y : ℚ) :
    ∀ (l : List LayerData) (v0 : ℚ) (rd : Bool),
      (l.foldl (offsetStep ri x y) (v0, rd)).1 =
        v0 + (l.map (offsetContribution ri x y)).sum := by
  intro l
  induction l with
  | nil => intro v0 rd; simp
  | cons o rest ih =>
    intro v0 rd
    simp only [List.foldl_cons, List.map_cons, List.sum_cons]
    rw [ih (offsetStep ri x y (v0, rd) o).1 (offsetStep ri x y (v0, rd) o).2]
    rw [offsetStep_fst]
    ring

theorem offsetPhase_val (os : List LayerData) (ri : Option ℕ) (v0 x y : ℚ) :
    (offsetPhase os ri v0 x y).1 = v0 + (os.map (offsetContribution ri x y)).sum := by
  unfold offsetPhase
  rw [foldl_offsetStep]
  rw [List.map_reverse, List.sum_reverse]

/-- C4: in the general path of `populateHeightfield`, offset layers are additive
displacements, never replacements: the final value of the cell is the contender
base value (the sample of the winner, or the prior value of the cell when no
contender resolved) plus the sum of the offset contributions.  An offset
layer contributes its sampled value exactly when its priority index is
greater than or equal to the index of the winning contender (or no contender
resolved) and its fetched sample is neither the no-data sentinel nor zero;
an offset whose index is strictly below the index of the winner, or whose fetch
fails, or whose sample is no-data or zero, contributes nothing. -/
theorem offset_layers_additive (cs os : List LayerData) (x y v0 : ℚ) :
    (cellValueAt cs os x y v0 =
      match (cellResolve cs x y).1 with
      | some (idx, e) => e + (os.map (offsetContribution (some idx) x y)).sum
      | none => v0 + (os.map (offsetContribution none x y)).sum) ∧
    (∀ o ∈ os, ∀ (idx : ℕ) (e : ℚ), (cellResolve cs x y).1 = some (idx, e) →
      o.index < idx → offsetContribution (some idx) x y o = 0) ∧
    (∀ o ∈ os, ∀ (n : ℕ) (g : GeoHF), o.layer.fetch o.key = some g → n ≤ o.index →
      offsetContribution (some n) x y o =
        if heightAtQ g x y ≠ NO_DATA_VALUE ∧ heightAtQ g x y ≠ 0
        then heightAtQ g x y else 0) ∧
    (∀ o ∈ os, ∀ (g : GeoHF), o.layer.fetch o.key = some g →
      offsetContribution none x y o =
        if heightAtQ g x y ≠ NO_DATA_VALUE ∧ heightAtQ g x y ≠ 0
        then heightAtQ g x y else 0) ∧
    (∀ o ∈ os, o.layer.fetch o.key = none →
      ∀ ri : Option ℕ, offsetContribution ri x y o = 0) := by
  refine ⟨?_, ?_, ?_, ?_, ?_⟩
  · unfold cellValueAt
    rcases hres : (cellResolve cs x y).1 with _ | ie
    · simp [offsetPhase_val]
    · obtain ⟨idx, e⟩ := ie
      simp [offsetPhase_val]
  · intro o _ idx e _ hlt
    unfold offsetContribution
    simp [hlt]
  · intro o _ n g hf hle
    unfold offsetContribution
    have : ¬(o.index < n) := by omega
    simp [this, hf]
  · intro o _ g hf
    unfold offsetContribution
    simp [hf]
  · intro o _ hf ri
    unfold offsetContribution
    rcases ri with _ | n
    · simp [hf]
    · by_cases hlt : o.index < n
      · simp [hlt]
      · simp [hlt, hf]

theorem offset_layers_additive_witness :
    cellValueAt [⟨layerOf 5, kA, false, 1⟩]
        [⟨offsetLayerOf 3, kA, false, 2⟩, ⟨offsetLayerOf 11, kA, false, 0⟩]
        (xAt 0 1 2 0) (yAt 0 1 2 0) 0 = 5 + 3 ∧
      offsetContribution (some 1) (xAt 0 1 2 0) (yAt 0 1 2 0)
        ⟨offsetLayerOf 11, kA, false, 0⟩ = 0 := by
  have hx : xAt 0 1 2 0 = 0 := by norm_num [xAt]
  have hy : yAt 0 1 2 0 = 0 := by norm_num [yAt]
  have hval5 : heightAtQ (constHF 5 1) 0 0 = 5 := by
    norm_num [heightAtQ, constHF, clampIdx]
  have hval3 : heightAtQ (constHF 3 1) 0 0 = 3 := by
    norm_num [heightAtQ, constHF, clampIdx]
  have hw5 : walkLegal (layerOf 5).legal (layerOf 5).fetch kA = some (kA, constHF 5 1) := rfl
  have hA : validSample ⟨layerOf 5, kA, false, 1⟩ (xAt 0 1 2 0) (yAt 0 1 2 0) = some 5 := by
    rw [hx, hy]
    simp only [validSample, hw5, hval5]
    norm_num [NO_DATA_VALUE]
  have hres : (cellResolve [⟨layerOf 5, kA, false, 1⟩] (xAt 0 1 2 0) (yAt 0 1 2 0)).1 =
      some (1, 5) :=
    cellResolve_cons_some ⟨layerOf 5, kA, false, 1⟩ [] (xAt 0 1 2 0) (yAt 0 1 2 0) 5 hA
  obtain ⟨hvaleq, hbelow, happl, -, -⟩ :=
    offset_layers_additive [⟨layerOf 5, kA, false, 1⟩]
      [⟨offsetLayerOf 3, kA, false, 2⟩, ⟨offsetLayerOf 11, kA, false, 0⟩]
      (xAt 0 1 2 0) (yAt 0 1 2 0) 0
  have hc3 : offsetContribution (some 1) (xAt 0 1 2 0) (yAt 0 1 2 0)
      ⟨offsetLayerOf 3, kA, false, 2⟩ = 3 := by
    have := happl ⟨offsetLayerOf 3, kA, false, 2⟩ (by simp) 1 (constHF 3 1) rfl (by decide)
    rw [this, hx, hy, hval3]
    norm_num [NO_DATA_VALUE]
  have hc11 : offsetContribution (some 1) (xAt 0 1 2 0) (yAt 0 1 2 0)
      ⟨offsetLayerOf 11, kA, false, 0⟩ = 0 :=
    hbelow ⟨offsetLayerOf 11, kA, false, 0⟩ (by simp) 1 5 hres (by decide)
  constructor
  · rw [hvaleq, hres]
    simp [hc3, hc11]
  · exact hc11

theorem clampIdx_natCast (n : ℕ) (c : ℕ) (hc : c < n) : clampIdx n ((c : ℤ)) = c := by
  unfold clampIdx
  have h0 : ¬((c : ℤ) < 0) := by omega
  rw [if_neg h0, Int.toNat_natCast, min_eq_left (by omega)]

theorem heightAtQ_grid (g : GeoHF) (c r : ℕ) (hc : c < g.w) (hr : r < g.h)
    (h2w : 2 ≤ g.w) (h2h : 2 ≤ g.h) (hx : g.xmin < g.xmax) (hy : g.ymin < g.ymax) :
    heightAtQ g (g.xmin + (g.xmax - g.xmin) / ((g.w : ℚ) - 1) * (c : ℚ))
      (g.ymin + (g.ymax - g.ymin) / ((g.h : ℚ) - 1) * (r : ℚ)) = g.dataAt c r := by
  have hwq : ((g.w : ℚ) - 1) ≠ 0 := by
    have h2 : (2 : ℚ) ≤ (g.w : ℚ) := by exact_mod_cast h2w
    linarith
  have hhq : ((g.h : ℚ) - 1) ≠ 0 := by
    have h2 : (2 : ℚ) ≤ (g.h : ℚ) := by exact_mod_cast h2h
    linarith
  have hxq : g.xmax - g.xmin ≠ 0 := by
    intro hz
    linarith
  have hyq : g.ymax - g.ymin ≠ 0 := by
    intro hz
    linarith
  have hu : (g.xmin + (g.xmax - g.xmin) / ((g.w : ℚ) - 1) * (c : ℚ) - g.xmin) /
      (g.xmax - g.xmin) * ((g.w : ℚ) - 1) = (c : ℚ) := by
    field_simp
    ring
  have hv : (g.ymin + (g.ymax - g.ymin) / ((g.h : ℚ) - 1) * (r : ℚ) - g.ymin) /
      (g.ymax - g.ymin) * ((g.h : ℚ) - 1) = (r : ℚ) := by
    field_simp
    ring
  simp only [heightAtQ, hu, hv, Int.floor_natCast]
  rw [clampIdx_natCast g.w c hc, clampIdx_natCast g.h r hr]
  push_cast
  ring

theorem walkLegal_hit {α : Type} (legal : TileKey → Bool) (fetch : TileKey → Option α)
    (k : TileKey) (v : α) (hv : k.valid = true) (hl : legal k = true)
    (hf : fetch k = some v) : walkLegal legal fetch k = some (k, v) := by
  simp [walkLegal, walkLegalAux, hv, hl, hf]

/-- C7: fast-path equivalence.  With exactly one contender, no offset
layers, and the fetched raster of the contender exactly matching the output
dimensions (the conditions guarding the fast path, plus the facts that hold
there: the key of the contender is valid and in legal range, its raster covers
the output extent, and the output raster is prefilled with the no-data
sentinel), the fast-path raw-buffer copy is pixel-identical to what the
general per-cell resampling path produces for the same inputs. -/
theorem fast_path_equivalent (c0 : LayerData) (g : GeoHF) (W H : ℕ)
    (xmin ymin exW exH : ℚ) (hf0 : ℕ → ℕ → ℚ)
    (hfetch : c0.layer.fetch c0.key = some g)
    (hkv : c0.key.valid = true) (hkl : c0.layer.legal c0.key = true)
    (hw : g.w = W) (hh : g.h = H) (h2W : 2 ≤ g.w) (h2H : 2 ≤ g.h)
    (hgx : g.xmin = xmin) (hgy : g.ymin = ymin)
    (hgX : g.xmax = xmin + exW) (hgY : g.ymax = ymin + exH)
    (hexW0 : 0 < exW) (hexH0 : 0 < exH)
    (hpre : ∀ c r : ℕ, c < W → r < H → hf0 c r = NO_DATA_VALUE) :
    ∀ c r : ℕ, fastCopy g W H hf0 c r =
      (sampleAll [c0] [] xmin ymin exW exH W H hf0).1 c r := by
  subst hw hh hgx hgy
  have hexW : exW = g.xmax - g.xmin := by rw [hgX]; ring
  have hexH : exH = g.ymax - g.ymin := by rw [hgY]; ring
  subst hexW hexH
  have hxx : g.xmin < g.xmax := by linarith
  have hyy : g.ymin < g.ymax := by linarith
  have hwalk := walkLegal_hit c0.layer.legal c0.layer.fetch c0.key g hkv hkl hfetch
  intro c r
  by_cases hcr : c < g.w ∧ r < g.h
  · rw [sampleAll_apply, if_pos hcr]
    have hsample : heightAtQ g (xAt g.xmin (g.xmax - g.xmin) g.w c)
        (yAt g.ymin (g.ymax - g.ymin) g.h r) = g.dataAt c r := by
      have hgr := heightAtQ_grid g c r hcr.1 hcr.2 h2W h2H hxx hyy
      simpa [xAt, yAt] using hgr
    by_cases hnd : g.dataAt c r = NO_DATA_VALUE
    · have hvs : validSample c0 (xAt g.xmin (g.xmax - g.xmin) g.w c)
          (yAt g.ymin (g.ymax - g.ymin) g.h r) = none := by
        simp [validSample, hwalk, hsample, hnd]
      have hres := cellResolve_cons_none c0 [] (xAt g.xmin (g.xmax - g.xmin) g.w c)
        (yAt g.ymin (g.ymax - g.ymin) g.h r) hvs
      unfold cellValueAt
      rw [hres]
      simp only [cellResolve]
      simp [offsetPhase_val, fastCopy, hcr, hnd, hpre c r hcr.1 hcr.2]
    · have hvs : validSample c0 (xAt g.xmin (g.xmax - g.xmin) g.w c)
          (yAt g.ymin (g.ymax - g.ymin) g.h r) = some (g.dataAt c r) := by
        simp [validSample, hwalk, hsample, hnd]
      have hres := cellResolve_cons_some c0 [] (xAt g.xmin (g.xmax - g.xmin) g.w c)
        (yAt g.ymin (g.ymax - g.ymin) g.h r) (g.dataAt c r) hvs
      unfold cellValueAt
      rw [hres]
      simp [offsetPhase_val, fastCopy, hcr]
  · rw [sampleAll_apply, if_neg hcr]
    unfold fastCopy
    rw [if_neg hcr]

theorem fast_path_equivalent_witness :
    fastCopy (constHF 5 1) 2 2 hfSentinel 0 0 =
      (sampleAll [⟨layerOf 5, kA, false, 1⟩] [] 0 0 1 1 2 2 hfSentinel).1 0 0 := by
  exact fast_path_equivalent ⟨layerOf 5, kA, false, 1⟩ (constHF 5 1) 2 2 0 0 1 1 hfSentinel
    rfl rfl rfl rfl rfl (by decide) (by decide) rfl rfl (by norm_num [constHF])
    (by norm_num [constHF]) (by norm_num) (by norm_num)
    (fun _ _ _ _ => rfl) 0 0

/-- C10: whenever `populateHeightfield` runs to completion without
cancellation (the `done` outcome), no sample of the output heightfield
equals the no-data sentinel: the final invalid-height resolution step is
always invoked with a null geoid from this entry point
(ElevationLayer.cpp:940), so the geoid-correction branch is unreachable and
every cell still holding the sentinel after sampling is overwritten with
exactly `0.0` (first conjunct), leaving no sentinel in the result (second
conjunct). -/
theorem populate_zero_fills_invalid (layers : List LayerM) (key : TileKey)
    (haeProfile : Option ℕ) (mapRes : TileKey → ℕ → ℕ → TileKey) (W H : ℕ)
    (xmin ymin exW exH : ℚ) (cancel : Bool) (hf0 : ℕ → ℕ → ℚ) :
    (∀ (grid : ℕ → ℕ → ℚ) (c r : ℕ),
      resolveInvalidHeights W H ymin xmin exH exW NO_DATA_VALUE none grid c r =
        if grid c r = NO_DATA_VALUE then 0 else grid c r) ∧
    (∀ (rd : Bool) (hfR : ℕ → ℕ → ℚ),
      populateHeightfield layers key haeProfile mapRes W H xmin ymin exW exH cancel hf0 =
        .done rd hfR →
      ∀ c r : ℕ, hfR c r ≠ NO_DATA_VALUE) := by
  constructor
  · intro grid c r
    rfl
  · intro rd hfR hP c r
    simp only [populateHeightfield] at hP
    by_cases hA : (((classify layers key (keyToUseOf key haeProfile) W mapRes).1.isEmpty &&
        (classify layers key (keyToUseOf key haeProfile) W mapRes).2.1.isEmpty) = true)
    · rw [if_pos hA] at hP
      simp at hP
    · rw [if_neg hA] at hP
      by_cases hB : ((classify layers key (keyToUseOf key haeProfile) W mapRes).1.length +
          (classify layers key (keyToUseOf key haeProfile) W mapRes).2.1.length =
          (classify layers key (keyToUseOf key haeProfile) W mapRes).2.2)
      · rw [if_pos hB] at hP
        simp at hP
      · rw [if_neg hB] at hP
        rcases hfast : fastPathHF
            (classify layers key (keyToUseOf key haeProfile) W mapRes).1
            (classify layers key (keyToUseOf key haeProfile) W mapRes).2.1 W H hf0
          with _ | hf1
        · simp only [hfast] at hP
          cases cancel
          · simp only [Bool.false_eq_true, if_false] at hP
            obtain ⟨h1, h2⟩ := (PopOutcome.done.injEq _ _ _ _).mp hP
            rw [← h2]
            simp only [resolveInvalidHeights]
            split
            · decide
            · assumption
          · simp at hP
        · simp only [hfast] at hP
          cases cancel
          · simp only [Bool.false_eq_true, if_false] at hP
            obtain ⟨h1, h2⟩ := (PopOutcome.done.injEq _ _ _ _).mp hP
            rw [← h2]
            simp only [resolveInvalidHeights]
            split
            · decide
            · assumption
          · simp at hP

theorem populate_zero_fills_invalid_witness :
    (populateHeightfield [layerOf 5] kA none mapResId 2 2 0 0 1 1 false hfSentinel).isDone =
        true ∧
      (populateHeightfield [layerOf 5] kA none mapResId 2 2 0 0 1 1 false
          hfSentinel).hfOf 0 0 ≠ NO_DATA_VALUE := by
  have hd : (populateHeightfield [layerOf 5] kA none mapResId 2 2 0 0 1 1 false
      hfSentinel).isDone = true := by decide
  refine ⟨hd, ?_⟩
  rcases hP : populateHeightfield [layerOf 5] kA none mapResId 2 2 0 0 1 1 false hfSentinel
    with hf1 | hf1 | hf1 | ⟨rd, hfR⟩
  · rw [hP] at hd
    simp [PopOutcome.isDone] at hd
  · rw [hP] at hd
    simp [PopOutcome.isDone] at hd
  · rw [hP] at hd
    simp [PopOutcome.isDone] at hd
  · have := (populate_zero_fills_invalid [layerOf 5] kA none mapResId 2 2 0 0 1 1 false
      hfSentinel).2 rd hfR hP 0 0
    simpa [PopOutcome.hfOf] using this

theorem buildMosaic_dependencies_sorted (sources : List (TileKey × GeoHF))
    (minx miny maxx maxy : ℚ) (xf xfInv : Point3 → Point3) (xfValid : Bool) :
    (buildMosaic sources minx miny maxx maxy xf xfInv xfValid).dependencies.Sorted
      SortByResolution :=
  List.sorted_insertionSort SortByResolution (sources.map Prod.snd)

theorem foldl_sample_stop (x y : ℚ) :
    ∀ (l : List GeoHF) (z : ℚ), z ≠ NO_DATA_VALUE →
      l.foldl (fun z1 s => if z1 = NO_DATA_VALUE then heightAtQ s x y else z1) z = z := by
  intro l
  induction l with
  | nil => intro z _; rfl
  | cons s rest ih =>
    intro z hz
    simp only [List.foldl_cons, if_neg hz]
    exact ih z hz

theorem samplePointZ_first (sources : List GeoHF) (p : Point3) (h : p.z = NO_DATA_VALUE) :
    (samplePointZ sources p).z =
      ((sources.map (fun s => heightAtQ s p.x p.y)).find?
        (fun v => decide (v ≠ NO_DATA_VALUE))).getD NO_DATA_VALUE := by
  simp only [samplePointZ]
  rw [h]
  induction sources with
  | nil => rfl
  | cons s rest ih =>
    simp only [List.foldl_cons, List.map_cons, if_pos rfl, if_true]
    by_cases hz : heightAtQ s p.x p.y = NO_DATA_VALUE
    · rw [hz, List.find?_cons_of_neg _ (by simp)]
      exact ih
    · rw [foldl_sample_stop p.x p.y rest _ hz, List.find?_cons_of_pos _ (by simpa using hz)]
      rfl

/-- C8: the claim describes the intended finest-first sampling (the sort
really is by resolution, finest first — see
`buildMosaic_dependencies_sorted` and `samplePointZ_first` — matching the
sibling assembler ImageLayer.cpp, which sizes its point vector with
`assign`), but the code as written never samples any source: the point
vector is only `reserve`d (ElevationLayer.cpp:335), so `points.size() == 0`
and the sampling loop `for (auto& point : points)` iterates zero elements.
Concretely, with one intersecting key at the target LOD whose fetch
succeeds with a raster that is 5 everywhere, the assembled mosaic exists
but every cell holds `NO_DATA_VALUE`, even though sampling the source at
the first pixel center would return 5. -/
theorem assemble_as_written_never_samples :
    (assembleHeightfieldAsWritten [kA0] 0 (fun _ => some (constHF 5 1)) 0 0 1 1 false).isSome =
        true ∧
      mosaicDataAt (assembleHeightfieldAsWritten [kA0] 0 (fun _ => some (constHF 5 1))
        0 0 1 1 false) 0 0 = NO_DATA_VALUE ∧
      heightAtQ (constHF 5 1) (1/4) (1/4) = 5 := by
  refine ⟨by decide, by decide, ?_⟩
  have hfl : (⌊(1/4 : ℚ)⌋ : ℤ) = 0 := by
    rw [Int.floor_eq_zero_iff]
    constructor <;> norm_num
  norm_num [heightAtQ, constHF, clampIdx, hfl]
